import Mathlib

/-!
BEKK estimation-results diagnostics: a shallow embedding of
`bekk/bekk_results.py` (class `BEKKResults`) together with proofs about its
portfolio computations.

Modelling conventions: machine floats are modelled by `ℚ` (exact field
arithmetic); a `(nobs, nstocks)` numpy array is a function
`Fin T → Fin N → ℚ`; a `(nobs, nstocks, nstocks)` array is a function
`Fin T → Matrix (Fin N) (Fin N) ℚ`.  Python exceptions surfacing from the
module are modelled with `Except PyError`: the `ValueError` raised by
`weights`, and the numpy `LinAlgError` propagated uncaught out of
`np.linalg.solve` in `weights_minvar`.
-/

namespace Bekk

open Matrix

/-- Errors the module can surface: the Python `ValueError` raised by
`weights` for an unsupported kind, and the numpy `LinAlgError` propagated
from `np.linalg.solve` on a singular matrix. -/
inductive PyError where
  | valueError : String → PyError
  | linAlgError : PyError
deriving DecidableEq

/-- Modelled from the spec: the parameter sets `param_start` / `param_final`
are opaque structured objects owned by the estimation step (their source is
not part of this module); the results object only renders them (`str`) and
reads the additive `penalty()` term. -/
structure ParamSet where
  render : String
  penalty : ℚ
deriving DecidableEq

/-- Modelled from the spec: the optimizer output `opt_out` is an external
`scipy.optimize.OptimizeResult`; this module reads the parameter vector
`x`, the final objective value `fun` (here `funVal`), and the
possibly-absent iteration count `nit`, whose absence is modelled as
`none`. -/
structure OptOut where
  x : List ℚ
  funVal : ℚ
  nit : Option Nat
deriving DecidableEq

/-- The `BEKKResults` container of `bekk/bekk_results.py`, with the fields
stored by `__init__`.  `T` is the number of observations (`nobs`), `N` the
number of assets (`nstocks`). -/
structure BEKKResults (T N : ℕ) where
  innov : Fin T → Fin N → ℚ
  hvar : Fin T → Matrix (Fin N) (Fin N) ℚ
  var_target : Matrix (Fin N) (Fin N) ℚ
  model : String
  restriction : String
  use_target : Bool
  cfree : Bool
  method : String
  time_delta : ℚ
  param_start : ParamSet
  param_final : ParamSet
  opt_out : OptOut

variable {T N : ℕ}

/-- `weights_equal`: `np.ones_like(self.innov) / self.innov.shape[1]` — a
`(T, N)` array every entry of which is `1 / N`. -/
def weights_equal (_r : BEKKResults T N) : Fin T → Fin N → ℚ :=
  fun _ _ => 1 / (N : ℚ)

/-- The vector `np.linalg.solve(hvari, np.ones(nstocks))` computed inside
`weights_minvar`, written by Cramer's rule: for a nonsingular matrix,
`det⁻¹ • (adjugate *ᵥ 1)` is the unique solution of `hvari · x = 1`.
(Singularity is checked at the call site in `weights_minvar`.) -/
def solveOnes (H : Matrix (Fin N) (Fin N) ℚ) : Fin N → ℚ :=
  (H.det)⁻¹ • (H.adjugate *ᵥ fun _ => (1 : ℚ))

/-- One iteration of the loop in `weights_minvar`:
`inv_hvar = np.linalg.solve(hvari, np.ones(nstocks))` followed by
`inv_hvar / inv_hvar.sum()`. -/
def minvarRow (H : Matrix (Fin N) (Fin N) ℚ) : Fin N → ℚ :=
  fun i => solveOnes H i / ∑ j, solveOnes H j

/-- `weights_minvar`: loops over the stored `hvar` matrices, solving
`hvari · x = ones` and normalising by the sum.  `np.linalg.solve` raises
`LinAlgError` on a singular matrix and the loop does not catch it, so the
whole call fails as soon as any `hvari` is singular. -/
def weights_minvar (r : BEKKResults T N) : Except PyError (Fin T → Fin N → ℚ) :=
  if _h : ∀ t, (r.hvar t).det ≠ 0 then
    Except.ok (fun t => minvarRow (r.hvar t))
  else
    Except.error PyError.linAlgError

/-- `weights(kind='equal')`: dispatch on the `kind` string; any string other
than `'equal'` or `'minvar'` raises
`ValueError('Weight choice is not supported!')`. -/
def weights (r : BEKKResults T N) (kind : String := "equal") :
    Except PyError (Fin T → Fin N → ℚ) :=
  if kind = "equal" then Except.ok (weights_equal r)
  else if kind = "minvar" then weights_minvar r
  else Except.error (PyError.valueError "Weight choice is not supported!")

/-- `portf_rvar(kind='equal')`: `(self.innov * weights).sum(1)` — the
elementwise product of innovations and weights summed across assets, one
number per observation. -/
def portf_rvar (r : BEKKResults T N) (kind : String := "equal") :
    Except PyError (Fin T → ℚ) :=
  (weights r kind).map fun w => fun t => ∑ i, r.innov t i * w t i

/-- `portf_evar(kind='equal')`:
`((self.hvar.T * weights.T).sum(0) * weights.T).sum(0)`.  Unfolding the
numpy semantics: `hvar.T` has shape `(N, N, T)` with entry
`[i, j, t] = hvar[t, j, i]`, and the `(N, T)`-shaped `weights.T`
broadcasts along the first axis, so the first product has entry
`[i, j, t] = hvar[t, j, i] * weights[t, j]`; `.sum(0)` contracts the
index `i`, the second multiplication by `weights.T` multiplies by
`weights[t, j]` again, and the final `.sum(0)` contracts `j`.  Per
observation `t` the result is `∑ j, (∑ i, hvar t j i * w t j) * w t j`. -/
def portf_evar (r : BEKKResults T N) (kind : String := "equal") :
    Except PyError (Fin T → ℚ) :=
  (weights r kind).map fun w =>
    fun t => ∑ j, (∑ i, r.hvar t j i * w t j) * w t j

/-- `portf_mvar(kind='equal')`: `self.portf_evar(kind=kind).mean()` — the
arithmetic mean over the `T` observations. -/
def portf_mvar (r : BEKKResults T N) (kind : String := "equal") :
    Except PyError ℚ :=
  (portf_evar r kind).map fun ev => (∑ t, ev t) / (T : ℚ)

/-- `loss_var_ratio(kind='equal')`:
`self.portf_rvar(kind=kind) / self.portf_evar(kind=kind) - 1`, an
unguarded elementwise division (numpy float division raises nothing on a
zero denominator; in this exact-arithmetic model division is the total
field division of `ℚ`). -/
def loss_var_ratio (r : BEKKResults T N) (kind : String := "equal") :
    Except PyError (Fin T → ℚ) := do
  let rvar ← portf_rvar r kind
  let evar ← portf_evar r kind
  return fun t => rvar t / evar t - 1

/-- Rendering primitives `__str__` uses but does not define: `fmtFloat2`
models the Python `'%.2f'` format, `fmtTime` is modelled from the spec
(`format_time` lives in `bekk/utils.py`, which is not part of the module;
the spec only says the elapsed time is rendered formatted), and
`fmtMatrix` models `str()` of a numpy `(N, N)` array. -/
structure RenderEnv (N : ℕ) where
  fmtFloat2 : ℚ → String
  fmtTime : ℚ → String
  fmtMatrix : Matrix (Fin N) (Fin N) ℚ → String

/-- Python `str()` of a boolean. -/
def pyStrBool (b : Bool) : String :=
  if b then "True" else "False"

/-- The `'=' * width` separator line of `__str__` (`width = 60`). -/
def sepLine : String :=
  String.mk (List.replicate 60 '=')

/-- The iterations line of `__str__`: `try` reads `self.opt_out.nit`;
when the attribute is missing the bare `except` substitutes `'NA'`. -/
def iterLine (nit : Option Nat) : String :=
  match nit with
  | some n => "\nIterations = " ++ toString n
  | none => "\nIterations = NA"

/-- The part of `__str__` built before the iterations line: separator,
model, restriction, targeting flags and parameter count.  Reads nothing
from `opt_out.nit`. -/
def strHead (r : BEKKResults T N) : String :=
  sepLine
    ++ "\nModel: " ++ r.model
    ++ "\nRestriction: " ++ r.restriction
    ++ "\nUse target: " ++ pyStrBool r.use_target
    ++ "\nMatrix C is free: " ++ pyStrBool r.cfree
    ++ "\nNumber of parameters: " ++ toString r.opt_out.x.length

/-- The part of `__str__` built after the iterations line: method, time,
final parameters, variance target and the two log-likelihood figures.
Reads nothing from `opt_out.nit`. -/
def strTail (env : RenderEnv N) (r : BEKKResults T N) : String :=
  "\nOptimization method = " ++ r.method
    ++ "\nOptimization time = " ++ env.fmtTime r.time_delta
    ++ "\n\nFinal parameters:" ++ r.param_final.render
    ++ "\nVariance target:\n" ++ env.fmtMatrix r.var_target ++ "\n"
    ++ "\nFinal log-likelihood (with penalty) = "
    ++ env.fmtFloat2 (-r.opt_out.funVal) ++ "\n"
    ++ "Final log-likelihood = "
    ++ env.fmtFloat2 (-r.opt_out.funVal + r.param_final.penalty) ++ "\n"
    ++ sepLine

/-- `__str__` of `BEKKResults`, assembled in source order. -/
def strRepr (env : RenderEnv N) (r : BEKKResults T N) : String :=
  strHead r ++ iterLine r.opt_out.nit ++ strTail env r

/-- Replace the stored iteration count, leaving every other field alone. -/
def setNit (r : BEKKResults T N) (nit : Option Nat) : BEKKResults T N :=
  { r with opt_out := { r.opt_out with nit := nit } }

/-- Positive definiteness of an `N × N` matrix over `ℚ`: the quadratic
form `v ↦ vᵀ H v` is positive away from zero.  The spec's data model makes
every stored `hvar` matrix a symmetric positive-(semi)definite covariance
matrix, so a nonsingular covariance matrix is exactly a positive-definite
one. -/
def IsPosDef (H : Matrix (Fin N) (Fin N) ℚ) : Prop :=
  ∀ v : Fin N → ℚ, v ≠ 0 → 0 < ∑ i, v i * (H *ᵥ v) i

/-- The model-implied variance the spec asserts: the quadratic form
`w_tᵀ · H_t · w_t`, written from the spec's words for comparison with the
source's `portf_evar`. -/
def quadFormSpec (r : BEKKResults T N) (w : Fin T → Fin N → ℚ) :
    Fin T → ℚ :=
  fun t => ∑ i, ∑ j, w t i * r.hvar t i j * w t j

/-! Concrete instances used by counterexamples and witnesses. -/

/-- A throwaway parameter set for concrete instances. -/
def exParam : ParamSet :=
  { render := "", penalty := 0 }

/-- A throwaway optimizer output with a present iteration count. -/
def exOpt : OptOut :=
  { x := [], funVal := 0, nit := some 3 }

/-- The spec's concrete scenario: `T = 1`, `N = 2`,
`innov = [[1, 2]]`, `hvar = [[[2, 0], [0, 2]]]`. -/
def r7 : BEKKResults 1 2 :=
  { innov := ![![1, 2]]
    hvar := fun _ => !![2, 0; 0, 2]
    var_target := !![0, 0; 0, 0]
    model := "standard"
    restriction := "full"
    use_target := true
    cfree := false
    method := "SLSQP"
    time_delta := 0
    param_start := exParam
    param_final := exParam
    opt_out := exOpt }

/-- A scenario with a nondiagonal positive-definite covariance matrix
`[[2, 1], [1, 3]]`, on which the tensor contraction of `portf_evar`
disagrees with the quadratic form under minimum-variance weights. -/
def r1 : BEKKResults 1 2 :=
  { r7 with hvar := fun _ => !![2, 1; 1, 3] }

/-- The minimum-variance weights of `r1`: solving
`[[2, 1], [1, 3]] · x = [1, 1]` gives `x = [2/5, 1/5]`, whose
normalisation is `[2/3, 1/3]`. -/
def w1 : Fin 1 → Fin 2 → ℚ :=
  ![![2/3, 1/3]]

/-- A scenario whose only covariance matrix `[[1, 1], [1, 1]]` is
singular. -/
def rSing : BEKKResults 1 2 :=
  { r7 with hvar := fun _ => !![1, 1; 1, 1] }

/-- A results object whose optimizer output lacks the `nit` attribute. -/
def rNA : BEKKResults 1 2 :=
  { r7 with opt_out := { x := [], funVal := 0, nit := none } }

/-- A concrete rendering environment for witnesses. -/
def env0 : RenderEnv 2 :=
  { fmtFloat2 := fun q => toString q
    fmtTime := fun q => toString q
    fmtMatrix := fun _ => "" }

/-! General lemmas about the linear solve and positive definiteness. -/

/-- Cramer's rule really solves the system: when `H` is nonsingular, the
vector computed by `solveOnes` satisfies `H · x = 1`. -/
theorem solveOnes_mulVec (H : Matrix (Fin N) (Fin N) ℚ) (h : H.det ≠ 0) :
    H *ᵥ solveOnes H = fun _ => (1 : ℚ) := by
  unfold solveOnes
  rw [Matrix.mulVec_smul, Matrix.mulVec_mulVec, Matrix.mul_adjugate,
    Matrix.smul_mulVec_assoc, Matrix.one_mulVec, smul_smul,
    inv_mul_cancel₀ h, one_smul]

/-- A positive-definite matrix is nonsingular. -/
theorem IsPosDef.det_ne_zero {H : Matrix (Fin N) (Fin N) ℚ}
    (h : IsPosDef H) : H.det ≠ 0 := by
  intro hdet
  obtain ⟨v, hv, hmv⟩ := Matrix.exists_mulVec_eq_zero_iff.mpr hdet
  have hpos := h v hv
  rw [hmv] at hpos
  simp at hpos

/-- For a positive-definite `H` the solution of `H · x = 1` has a positive
sum of entries. -/
theorem sum_solveOnes_pos (H : Matrix (Fin N) (Fin N) ℚ)
    (hPD : IsPosDef H) (hN : 0 < N) : 0 < ∑ j, solveOnes H j := by
  have hx : H *ᵥ solveOnes H = fun _ => (1 : ℚ) :=
    solveOnes_mulVec H hPD.det_ne_zero
  have hx0 : solveOnes H ≠ 0 := by
    intro h0
    rw [h0, Matrix.mulVec_zero] at hx
    have h01 := congrFun hx ⟨0, hN⟩
    simp at h01
  have hsum := hPD (solveOnes H) hx0
  rw [hx] at hsum
  simpa using hsum

/-- Each normalised minimum-variance row sums to `1` when its covariance
matrix is positive definite. -/
theorem sum_minvarRow_eq_one (H : Matrix (Fin N) (Fin N) ℚ)
    (hPD : IsPosDef H) (hN : 0 < N) : ∑ i, minvarRow H i = 1 := by
  have hs := sum_solveOnes_pos H hPD hN
  unfold minvarRow
  rw [← Finset.sum_div, div_self (ne_of_gt hs)]

/-- The stored covariance matrix of `r7` (twice the identity) is positive
definite. -/
theorem r7_hvar_posdef : IsPosDef (r7.hvar 0) := by
  intro v hv
  have hne : v 0 ≠ 0 ∨ v 1 ≠ 0 := by
    by_contra hc
    push_neg at hc
    apply hv
    funext i
    fin_cases i <;> simp [hc.1, hc.2]
  have h0 := mul_self_nonneg (v 0)
  have h1 := mul_self_nonneg (v 1)
  have hgoal : (0 : ℚ) < v 0 * (2 * v 0) + v 1 * (2 * v 1) := by
    rcases hne with h | h
    · nlinarith [mul_self_pos.mpr h]
    · nlinarith [mul_self_pos.mpr h]
  simpa [r7, Matrix.mulVec, Matrix.dotProduct, Fin.sum_univ_two] using hgoal

/-! Claim theorems. -/

/-- C3: for every stored `innov` of shape `T × N` with `N ≥ 1`,
`weights('equal')` returns the `T × N` structure `weights_equal`, every
entry of which equals `1 / N`. -/
theorem weights_equal_entries (r : BEKKResults T N) (hN : 1 ≤ N) :
    weights r "equal" = Except.ok (weights_equal r) ∧
    ∀ t i, weights_equal r t i = 1 / (N : ℚ) :=
  ⟨by rw [weights, if_pos rfl], fun _ _ => rfl⟩

/-- Witness for C3 at the concrete `r7` (`T = 1`, `N = 2`). -/
theorem weights_equal_entries_witness :
    1 ≤ 2 ∧
    weights r7 "equal" = Except.ok (weights_equal r7) ∧
    weights_equal r7 0 0 = 1 / 2 := by
  have h := weights_equal_entries r7 (by norm_num)
  refine ⟨by norm_num, h.1, ?_⟩
  rw [h.2 0 0]
  norm_num

/-- C2: any `kind` outside `{'equal', 'minvar'}` makes `weights` raise
`ValueError('Weight choice is not supported!')` at once, and every
downstream method forwarding `kind` surfaces the same error — there is no
silent fallback to a default weighting. -/
theorem weights_unknown_kind_raises (r : BEKKResults T N) (kind : String)
    (h1 : kind ≠ "equal") (h2 : kind ≠ "minvar") :
    weights r kind
        = Except.error (PyError.valueError "Weight choice is not supported!") ∧
    portf_rvar r kind
        = Except.error (PyError.valueError "Weight choice is not supported!") ∧
    portf_evar r kind
        = Except.error (PyError.valueError "Weight choice is not supported!") ∧
    portf_mvar r kind
        = Except.error (PyError.valueError "Weight choice is not supported!") ∧
    loss_var_ratio r kind
        = Except.error (PyError.valueError "Weight choice is not supported!") := by
  have hw : weights r kind
      = Except.error (PyError.valueError "Weight choice is not supported!") := by
    rw [weights, if_neg h1, if_neg h2]
  refine ⟨hw, ?_, ?_, ?_, ?_⟩ <;>
    simp only [ portf_rvar, portf_evar, portf_mvar, loss_var_ratio, hw,
      Except.map, Except.bind] <;> rfl

/-- Witness for C2 at `kind = 'bogus'` on `r7`. -/
theorem weights_unknown_kind_raises_witness :
    ("bogus" ≠ "equal" ∧ "bogus" ≠ "minvar") ∧
    weights r7 "bogus"
        = Except.error (PyError.valueError "Weight choice is not supported!") := by
  have h := weights_unknown_kind_raises r7 "bogus" (by decide) (by decide)
  exact ⟨⟨by decide, by decide⟩, h.1⟩

/-- C5: for every stored `innov` and every kind accepted by `weights`,
`portf_rvar(kind)` returns the length-`T` sequence whose `t`-th entry is
the weighted sum of raw, unsquared innovations
`∑ i, innov t i * w t i` with `w = weights(kind)`. -/
theorem portf_rvar_weighted_sum (r : BEKKResults T N) (kind : String)
    (w : Fin T → Fin N → ℚ) (hw : weights r kind = Except.ok w) :
    portf_rvar r kind = Except.ok (fun t => ∑ i, r.innov t i * w t i) := by
  rw [portf_rvar, hw]
  rfl

/-- Witness for C5 at `r7` with `kind = 'equal'`. -/
theorem portf_rvar_weighted_sum_witness :
    weights r7 "equal" = Except.ok (weights_equal r7) ∧
    portf_rvar r7 "equal"
        = Except.ok (fun t => ∑ i, r7.innov t i * weights_equal r7 t i) := by
  have hw : weights r7 "equal" = Except.ok (weights_equal r7) := by
    rw [weights, if_pos rfl]
  exact ⟨hw, portf_rvar_weighted_sum r7 "equal" (weights_equal r7) hw⟩

/-- C4: when every stored covariance matrix is nonsingular, the
minimum-variance weights succeed, and each row `t` whose (positive
semidefinite, per the data model) covariance matrix is nonsingular — i.e.
positive definite — is `x / sum x` for the solution `x` of
`H_t · x = ones`, and its entries sum to `1`. -/
theorem weights_minvar_normalized (r : BEKKResults T N) (t : Fin T)
    (hall : ∀ s, (r.hvar s).det ≠ 0) (hPD : IsPosDef (r.hvar t))
    (hN : 0 < N) :
    (r.hvar t) *ᵥ solveOnes (r.hvar t) = (fun _ => 1) ∧
    weights_minvar r = Except.ok (fun s => minvarRow (r.hvar s)) ∧
    (∀ i, minvarRow (r.hvar t) i
        = solveOnes (r.hvar t) i / ∑ j, solveOnes (r.hvar t) j) ∧
    ∑ i, minvarRow (r.hvar t) i = 1 := by
  refine ⟨solveOnes_mulVec (r.hvar t) (hall t), ?_, fun _ => rfl,
    sum_minvarRow_eq_one (r.hvar t) hPD hN⟩
  rw [weights_minvar, dif_pos hall]

/-- Witness for C4 at `r7`, `t = 0`, whose covariance matrix `2 · I` is
positive definite. -/
theorem weights_minvar_normalized_witness :
    (∀ s : Fin 1, (r7.hvar s).det ≠ 0) ∧ IsPosDef (r7.hvar 0) ∧ 0 < 2 ∧
    ∑ i, minvarRow (r7.hvar 0) i = 1 := by
  have hall : ∀ s : Fin 1, (r7.hvar s).det ≠ 0 := by
    intro s
    norm_num [ r7, Matrix.det_fin_two]
  have h := weights_minvar_normalized r7 0 hall r7_hvar_posdef (by norm_num)
  exact ⟨hall, r7_hvar_posdef, by norm_num, h.2.2.2⟩

/-- C8: as soon as some stored covariance matrix is singular,
`weights('minvar')` fails with the propagated numpy `LinAlgError`; the
module neither catches it nor translates it into a `ValueError`. -/
theorem weights_minvar_singular_error (r : BEKKResults T N)
    (h : ∃ t, (r.hvar t).det = 0) :
    weights r "minvar" = Except.error PyError.linAlgError ∧
    ∀ msg, weights r "minvar" ≠ Except.error (PyError.valueError msg) := by
  have hw : weights r "minvar" = Except.error PyError.linAlgError := by
    rw [weights, if_neg (by decide), if_pos rfl, weights_minvar, dif_neg]
    push_neg
    exact h
  refine ⟨hw, fun msg hmsg => ?_⟩
  rw [hw] at hmsg
  exact PyError.noConfusion (Except.error.inj hmsg)

/-- Witness for C8 at `rSing`, whose covariance matrix `[[1, 1], [1, 1]]`
is singular. -/
theorem weights_minvar_singular_error_witness :
    (rSing.hvar 0).det = 0 ∧
    weights rSing "minvar" = Except.error PyError.linAlgError := by
  have h0 : (rSing.hvar 0).det = 0 := by
    norm_num [ rSing, r7, Matrix.det_fin_two]
  exact ⟨h0, (weights_minvar_singular_error rSing ⟨0, h0⟩).1⟩

/-- C9: when the optimizer output lacks the iteration count (`nit` is
absent), `__str__` does not raise: the locally caught failure is replaced
by the placeholder `'NA'`, and every other rendered field is produced
exactly as it is when `nit` is present. -/
theorem strRepr_missing_nit (env : RenderEnv N) (r : BEKKResults T N)
    (h : r.opt_out.nit = none) :
    strRepr env r = strHead r ++ "\nIterations = NA" ++ strTail env r ∧
    ∀ n, strRepr env (setNit r (some n))
        = strHead r ++ ("\nIterations = " ++ toString n) ++ strTail env r := by
  constructor
  · rw [strRepr, h]
    rfl
  · intro n
    rfl

/-- Witness for C9 at `rNA`, whose optimizer output has no `nit`. -/
theorem strRepr_missing_nit_witness :
    rNA.opt_out.nit = none ∧
    strRepr env0 rNA = strHead rNA ++ "\nIterations = NA" ++ strTail env0 rNA :=
  ⟨rfl, (strRepr_missing_nit env0 rNA rfl).1⟩

/-! Evaluations on the spec's concrete scenario `r7`, shared by several
claims below. -/

/-- Equal weights of `r7` are `[[1/2, 1/2]]`. -/
theorem r7_weights_equal : weights_equal r7 = ![![1/2, 1/2]] := by
  funext t i
  fin_cases t <;> fin_cases i <;> norm_num [ weights_equal]

/-- Minimum-variance weights of `r7` are `[[1/2, 1/2]]`. -/
theorem r7_weights_minvar : weights_minvar r7 = Except.ok ![![1/2, 1/2]] := by
  rw [weights_minvar,
    dif_pos (by intro t; norm_num [ r7, Matrix.det_fin_two])]
  congr 1
  funext t i
  fin_cases t <;> fin_cases i <;>
    norm_num [ minvarRow, solveOnes, r7, Matrix.det_fin_two,
      Matrix.adjugate_fin_two, Matrix.mulVec, Matrix.dotProduct,
      Fin.sum_univ_two, Pi.smul_apply]

/-- Realized variance proxy of `r7` under equal weights is `[3/2]`. -/
theorem r7_portf_rvar : portf_rvar r7 "equal" = Except.ok ![3/2] := by
  rw [portf_rvar, weights, if_pos rfl]
  show Except.ok _ = _
  congr 1
  funext t
  fin_cases t
  norm_num [ weights_equal, r7, Fin.sum_univ_two]

/-- Model-implied variance of `r7` under equal weights is `[1]`. -/
theorem r7_portf_evar : portf_evar r7 "equal" = Except.ok ![1] := by
  rw [portf_evar, weights, if_pos rfl]
  show Except.ok _ = _
  congr 1
  funext t
  fin_cases t
  norm_num [ weights_equal, r7, Fin.sum_univ_two]

/-- Mean model-implied variance of `r7` under equal weights is `1`. -/
theorem r7_portf_mvar : portf_mvar r7 "equal" = Except.ok 1 := by
  rw [portf_mvar, r7_portf_evar]
  show Except.ok _ = _
  congr 1
  norm_num [Fin.sum_univ_one]

/-- Variance-ratio loss of `r7` under equal weights is `[1/2]`. -/
theorem r7_loss_var_ratio : loss_var_ratio r7 "equal" = Except.ok ![1/2] := by
  simp only [ loss_var_ratio, r7_portf_rvar, r7_portf_evar, Except.bind]
  show Except.ok _ = _
  congr 1
  funext t
  fin_cases t
  norm_num

/-- C6: for every kind accepted by `weights`, `loss_var_ratio(kind)` is the
elementwise `portf_rvar(kind) / portf_evar(kind) - 1`.  The division is
unguarded: here it is the total field division of `ℚ`, so a zero
`portf_evar` entry still yields an ordinary `Except.ok` value, never a
checked error (numpy float division likewise raises nothing and produces
an infinity or NaN). -/
theorem loss_var_ratio_formula (r : BEKKResults T N) (kind : String)
    (rv ev : Fin T → ℚ)
    (hrv : portf_rvar r kind = Except.ok rv)
    (hev : portf_evar r kind = Except.ok ev) :
    loss_var_ratio r kind = Except.ok (fun t => rv t / ev t - 1) := by
  simp only [ loss_var_ratio, hrv, hev, Except.bind]
  rfl

/-- Witness for C6 at `r7` with `kind = 'equal'`. -/
theorem loss_var_ratio_formula_witness :
    portf_rvar r7 "equal" = Except.ok ![3/2] ∧
    portf_evar r7 "equal" = Except.ok ![1] ∧
    loss_var_ratio r7 "equal"
        = Except.ok (fun t => (![3/2] : Fin 1 → ℚ) t / (![1] : Fin 1 → ℚ) t - 1) :=
  ⟨r7_portf_rvar, r7_portf_evar,
    loss_var_ratio_formula r7 "equal" ![3/2] ![1] r7_portf_rvar r7_portf_evar⟩

/-- C7: on the concrete input `T = 1`, `N = 2`, `innov = [[1, 2]]`,
`hvar = [[[2, 0], [0, 2]]]`: equal weights are `[[1/2, 1/2]]`,
minimum-variance weights are `[[1/2, 1/2]]`, `portf_rvar('equal')` is
`[3/2]`, `portf_evar('equal')` is `[1]`, `portf_mvar('equal')` is `1`,
and `loss_var_ratio('equal')` is `[1/2]`. -/
theorem spec_example_values :
    weights_equal r7 = ![![1/2, 1/2]] ∧
    weights_minvar r7 = Except.ok ![![1/2, 1/2]] ∧
    portf_rvar r7 "equal" = Except.ok ![3/2] ∧
    portf_evar r7 "equal" = Except.ok ![1] ∧
    portf_mvar r7 "equal" = Except.ok 1 ∧
    loss_var_ratio r7 "equal" = Except.ok ![1/2] :=
  ⟨r7_weights_equal, r7_weights_minvar, r7_portf_rvar, r7_portf_evar,
    r7_portf_mvar, r7_loss_var_ratio⟩

/-- C1 fails as stated: on `r1` (covariance `[[2, 1], [1, 3]]`) with
`kind = 'minvar'`, the weights are `[[2/3, 1/3]]`, `portf_evar` returns
`[16/9]`, but the quadratic form `w₀ᵀ · H₀ · w₀` is `5/3 ≠ 16/9`: the
tensor contraction of the source is not the quadratic form. -/
theorem portf_evar_minvar_quadform_cex :
    weights r1 "minvar" = Except.ok w1 ∧
    portf_evar r1 "minvar" = Except.ok ![16/9] ∧
    quadFormSpec r1 w1 0 = 5/3 ∧
    ((16 : ℚ)/9) ≠ 5/3 := by
  have hdets : ∀ t : Fin 1, (r1.hvar t).det ≠ 0 := by
    intro t
    norm_num [ r1, r7, Matrix.det_fin_two]
  refine ⟨?_, ?_, ?_, by norm_num⟩
  · rw [weights, if_neg (by decide), if_pos rfl, weights_minvar,
      dif_pos hdets]
    congr 1
    funext t i
    fin_cases t <;> fin_cases i <;>
      norm_num [ minvarRow, solveOnes, r1, r7, w1, Matrix.det_fin_two,
        Matrix.adjugate_fin_two, Matrix.mulVec, Matrix.dotProduct,
        Fin.sum_univ_two, Pi.smul_apply]
  · rw [portf_evar, weights, if_neg (by decide), if_pos rfl,
      weights_minvar, dif_pos hdets]
    show Except.ok _ = _
    congr 1
    funext t
    fin_cases t
    norm_num [ minvarRow, solveOnes, r1, r7, Matrix.det_fin_two,
      Matrix.adjugate_fin_two, Matrix.mulVec, Matrix.dotProduct,
      Fin.sum_univ_two, Pi.smul_apply]
  · norm_num [ quadFormSpec, r1, r7, w1, Fin.sum_univ_two]

/-- C1 (amended): `portf_evar(kind)` returns the length-`T` sequence whose
`t`-th entry is the contraction `∑ j, (∑ i, H_t[j,i] · w_t[j]) · w_t[j]`
with `w = weights(kind)`; when `kind = 'equal'` — the weights of a row
being constant — this coincides with the spec's quadratic form
`w_tᵀ · H_t · w_t`, but for `'minvar'` weights it generally differs. -/
theorem portf_evar_contraction (r : BEKKResults T N) (kind : String)
    (w : Fin T → Fin N → ℚ) (hw : weights r kind = Except.ok w) :
    portf_evar r kind
        = Except.ok (fun t => ∑ j, (∑ i, r.hvar t j i * w t j) * w t j) ∧
    (kind = "equal" →
      (fun t => ∑ j, (∑ i, r.hvar t j i * w t j) * w t j)
        = quadFormSpec r w) := by
  constructor
  · rw [portf_evar, hw]
    rfl
  · intro hk
    subst hk
    rw [weights, if_pos rfl] at hw
    have hwe : weights_equal r = w := Except.ok.inj hw
    subst hwe
    funext t
    unfold quadFormSpec weights_equal
    apply Finset.sum_congr rfl
    intro a _
    rw [Finset.sum_mul]
    apply Finset.sum_congr rfl
    intro b _
    ring

/-- Witness for the amended C1 at `r7` with `kind = 'equal'`. -/
theorem portf_evar_contraction_witness :
    weights r7 "equal" = Except.ok (weights_equal r7) ∧
    portf_evar r7 "equal" = Except.ok
      (fun t => ∑ j, (∑ i, r7.hvar t j i * weights_equal r7 t j)
          * weights_equal r7 t j) := by
  have hw : weights r7 "equal" = Except.ok (weights_equal r7) := by
    rw [weights, if_pos rfl]
  exact ⟨hw, (portf_evar_contraction r7 "equal" (weights_equal r7) hw).1⟩

/-- C10: every one of the five public diagnostic methods called with no
`kind` argument computes the same thing as the call with
`kind = 'equal'` — the `kind` parameter defaults to `'equal'`. -/
theorem default_kind_equal (r : BEKKResults T N) :
    weights r = weights r "equal" ∧
    portf_rvar r = portf_rvar r "equal" ∧
    portf_evar r = portf_evar r "equal" ∧
    portf_mvar r = portf_mvar r "equal" ∧
    loss_var_ratio r = loss_var_ratio r "equal" :=
  ⟨rfl, rfl, rfl, rfl, rfl⟩

end Bekk
